import Mathlib

/-!
Verification of the `openapi-request-validator` core
(`src/packages/openapi-request-validator/index.ts`).

The development shallowly embeds the TypeScript source: JSON-like values
become the inductive `Json`, JavaScript objects become association lists
that preserve insertion order (JS objects preserve string-key insertion
order, and the source iterates them with `Object.keys` / `for..in`),
in-place mutation becomes pure value rebuilding, and the external Ajv
compiled predicates become abstract functions `Json → Option (List AjvError)`
(`none` = the predicate accepted, `some errs` = it rejected with `errs`).
-/

set_option maxHeartbeats 1000000

/-- A JSON-like JavaScript value.  `undef` models JavaScript `undefined`
(an absent value), which the source distinguishes from `null` via
truthiness checks. -/
inductive Json where
  | undef : Json
  | null : Json
  | bool (b : Bool) : Json
  | num (n : Int) : Json
  | str (s : String) : Json
  | arr (elems : List Json) : Json
  | obj (fields : List (String × Json)) : Json

mutual

/-- Structural (deep) equality test on `Json`, matching JS deep equality on
JSON data (`Ajv` compares `enum` members by deep equality). -/
def Json.beq : Json → Json → Bool
  | .undef, .undef => true
  | .null, .null => true
  | .bool x, .bool y => x == y
  | .num x, .num y => x == y
  | .str x, .str y => x == y
  | .arr xs, .arr ys => Json.beqList xs ys
  | .obj fs, .obj gs => Json.beqFields fs gs
  | _, _ => false

def Json.beqList : List Json → List Json → Bool
  | [], [] => true
  | x :: xs, y :: ys => Json.beq x y && Json.beqList xs ys
  | _, _ => false

def Json.beqFields : List (String × Json) → List (String × Json) → Bool
  | [], [] => true
  | kv :: xs, kv2 :: ys => kv.1 == kv2.1 && Json.beq kv.2 kv2.2 && Json.beqFields xs ys
  | _, _ => false

end

theorem Json.beq_iff : ∀ (a b : Json), Json.beq a b = true ↔ a = b :=
  @Json.rec (fun a => ∀ b, Json.beq a b = true ↔ a = b)
    (fun xs => ∀ ys, Json.beqList xs ys = true ↔ xs = ys)
    (fun fs => ∀ gs, Json.beqFields fs gs = true ↔ fs = gs)
    (fun kv => ∀ kv2 : String × Json, (kv.1 == kv2.1 && Json.beq kv.2 kv2.2) = true ↔ kv = kv2)
    (by intro b; cases b <;> simp [Json.beq])
    (by intro b; cases b <;> simp [Json.beq])
    (by intro x b; cases b <;> simp [Json.beq])
    (by intro x b; cases b <;> simp [Json.beq])
    (by intro x b; cases b <;> simp [Json.beq])
    (by intro xs ih b; cases b <;> simp [Json.beq, ih])
    (by intro fs ih b; cases b <;> simp [Json.beq, ih])
    (by intro ys; cases ys <;> simp [Json.beqList])
    (by intro x xs ihx ihxs ys; cases ys <;> simp [Json.beqList, ihx, ihxs])
    (by intro gs; cases gs <;> simp [Json.beqFields])
    (by intro kv fs ihkv ihfs gs; cases gs <;> simp [Json.beqFields, ihkv, ihfs])
    (by intro k v ihv kv2; obtain ⟨k2, v2⟩ := kv2; simp [ihv, Prod.ext_iff])

instance : DecidableEq Json := fun a b => decidable_of_iff _ (Json.beq_iff a b)

/-- JavaScript truthiness of a value (`if (x)`). -/
def Json.truthy : Json → Bool
  | .undef => false
  | .null => false
  | .bool b => b
  | .num n => n != 0
  | .str s => s != ""
  | .arr _ => true
  | .obj _ => true

/-- A value that is not an object and not an array (a JSON scalar). -/
def Json.isAtom : Json → Bool
  | .obj _ => false
  | .arr _ => false
  | _ => true

/-- JS object property write: overwrite an existing key in place
(JS keeps the key's position) or append a new key at the end. -/
def setKey {α : Type} (l : List (String × α)) (k : String) (v : α) : List (String × α) :=
  if l.any (fun kv => kv.1 == k) then
    l.map (fun kv => if kv.1 == k then (k, v) else kv)
  else
    l ++ [(k, v)]

/-- JS `delete obj[k]`: remove the key. -/
def eraseKey {α : Type} (l : List (String × α)) (k : String) : List (String × α) :=
  l.filter (fun kv => kv.1 != k)

/-- JS property read `obj[k]` on a JSON object (`none` = `undefined`). -/
def Json.getField : Json → String → Option Json
  | .obj fields, k => List.lookup k fields
  | _, _ => none

/-- JS `k in obj`. -/
def Json.hasField (j : Json) (k : String) : Bool :=
  (j.getField k).isSome

/-- JS property write `obj[k] = v` on a JSON object. -/
def Json.setField : Json → String → Json → Json
  | .obj fields, k, v => .obj (setKey fields k v)
  | j, _, _ => j

/-! ### String helpers (ASCII case folding, prefix stripping, containment)

The source relies on the JavaScript string runtime (`toLowerCase`,
`indexOf`, anchored regex replaces).  These are embedded here on
`String.data` character lists; case folding is modelled for ASCII, which is
the alphabet of HTTP header names and media types. -/

/-- ASCII lower-casing of one character (JS `String.prototype.toLowerCase`
restricted to ASCII). -/
def charLower (c : Char) : Char :=
  if 65 ≤ c.toNat ∧ c.toNat ≤ 90 then Char.ofNat (c.toNat + 32) else c

/-- ASCII lower-casing of a string (JS `toLowerCase`). -/
def jsToLower (s : String) : String :=
  ⟨s.data.map charLower⟩

/-- Does `pre` occur at the start of `s`?  (Anchored regex test `/^pre/`.) -/
def strHasPre (pre s : String) : Bool :=
  pre.data.isPrefixOf s.data

/-- Drop `pre.length` characters from the front of `s`. -/
def strDropPre (pre s : String) : String :=
  ⟨s.data.drop pre.data.length⟩

/-- JS `s.indexOf(sub) > -1` (substring containment). -/
def hasInfixChars (sub : List Char) : List Char → Bool
  | [] => sub.isPrefixOf []
  | c :: t => sub.isPrefixOf (c :: t) || hasInfixChars sub t

/-- JS `s.indexOf(sub) > -1` on strings. -/
def strContains (s sub : String) : Bool :=
  hasInfixChars sub.data s.data

theorem charLower_toNat_of_upper (c : Char) (h : 65 ≤ c.toNat ∧ c.toNat ≤ 90) :
    (charLower c).toNat = c.toNat + 32 := by
  have hv : (c.toNat + 32).isValidChar := by
    left
    omega
  simp [charLower, h, Char.ofNat, hv]
  rfl

theorem charLower_eq_self_of_not_upper (c : Char) (h : ¬ (65 ≤ c.toNat ∧ c.toNat ≤ 90)) :
    charLower c = c := by
  simp [charLower, h]

theorem charLower_idem (c : Char) : charLower (charLower c) = charLower c := by
  by_cases h : 65 ≤ c.toNat ∧ c.toNat ≤ 90
  · have h2 := charLower_toNat_of_upper c h
    exact charLower_eq_self_of_not_upper _ (by omega)
  · rw [charLower_eq_self_of_not_upper c h, charLower_eq_self_of_not_upper c h]

theorem jsToLower_idem (s : String) : jsToLower (jsToLower s) = jsToLower s := by
  simp [jsToLower, List.map_map, Function.comp]
  congr 1
  exact List.map_congr_left (fun c _ => charLower_idem c)

theorem strHasPre_append (pre rest : String) : strHasPre pre (pre ++ rest) = true := by
  rw [strHasPre, String.data_append, List.isPrefixOf_iff_prefix]
  exact List.prefix_append _ _

theorem strDropPre_append (pre rest : String) : strDropPre pre (pre ++ rest) = rest := by
  rw [strDropPre, String.data_append, List.drop_left]

theorem strHasPre_iff (pre s : String) :
    strHasPre pre s = true ↔ ∃ rest, s = pre ++ rest := by
  rw [strHasPre, List.isPrefixOf_iff_prefix]
  constructor
  · rintro ⟨t, ht⟩
    refine ⟨⟨t⟩, ?_⟩
    cases s
    cases pre
    simp only [String.ext_iff] at *
    simpa [String.data_append] using ht.symm
  · rintro ⟨rest, rfl⟩
    rw [String.data_append]
    exact List.prefix_append _ _

/-! ### Media-type negotiation (`getSchemaForMediaType`, source lines 348-399)

The `Content-Type` header is first parsed by the external `content-type`
npm package, which is out of the repository's scope. -/

/-- An RFC 7230 token character (used by media-type grammar).  Character
codes spell `! # $ % & ' * + - . ^ _ ` | ~` plus alphanumerics. -/
def tokenChar (c : Char) : Bool :=
  c.isAlphanum || [33, 35, 36, 37, 38, 39, 42, 43, 45, 46, 94, 95, 96, 124, 126].contains c.toNat

/-- Split a character list at every occurrence of `sep` (JS
`String.prototype.split` with a one-character separator). -/
def splitOnChar (sep : Char) : List Char → List (List Char)
  | [] => [[]]
  | c :: t =>
    match splitOnChar sep t with
    | [] => [[]]
    | g :: gs => if c = sep then [] :: g :: gs else (c :: g) :: gs

/-- JS `String.prototype.split` with a one-character separator. -/
def jsSplit (sep : Char) (s : String) : List String :=
  (splitOnChar sep s.data).map (fun g => ⟨g⟩)

/-- An ASCII whitespace character (for `trim`). -/
def isWSChar (c : Char) : Bool :=
  c = ' ' ∨ c = '\t' ∨ c = '\n' ∨ c = '\r'

/-- JS `String.prototype.trim` (ASCII whitespace). -/
def jsTrim (s : String) : String :=
  ⟨((s.data.dropWhile isWSChar).reverse.dropWhile isWSChar).reverse⟩

/-- Modelled from the spec: the external HTTP content-type string parsing
collaborator ("extracts a normalized `type/subtype` from a raw header
value, fails on malformed input").  Mirrors the `content-type` npm
package: take the part before the first `;`, trim it, require the
`token "/" token` shape, and lower-case the result. -/
def contentTypeParse (s : String) : Option String :=
  let typ := jsTrim ((jsSplit ';' s).headD "")
  match jsSplit '/' typ with
  | [t, sub] =>
    if t ≠ "" ∧ sub ≠ "" ∧ t.data.all tokenChar ∧ sub.data.all tokenChar then
      some (jsToLower typ)
    else
      none
  | _ => none

/-- JS `s.split('/')[0]` with `undefined` read as `""`. -/
def part0 (s : String) : String :=
  (jsSplit '/' s).getD 0 ""

/-- JS `s.split('/')[1]` with `undefined` read as `""` (never equal to
`"*"` when the index is out of range, like `undefined !== '*'`). -/
def part1 (s : String) : String :=
  (jsSplit '/' s).getD 1 ""

/-- The matching loop of `getSchemaForMediaType` (source lines 377-397):
`m` and `pts` carry the mutable `match` / `matchPoints` variables. -/
def mediaTypeLoop (ct : String) : List String → Option String → Nat → Option String
  | [], m, _ => m
  | k :: rest, m, pts =>
    if strContains k ct then some k
    else
      let m1 := if k = "*/*" ∧ pts < 1 then some k else m
      let p1 := if k = "*/*" ∧ pts < 1 then 1 else pts
      if part1 k ≠ "*" then mediaTypeLoop ct rest m1 p1
      else if part0 ct = part0 k ∧ p1 < 2 then
        mediaTypeLoop ct rest (some k) 2
      else mediaTypeLoop ct rest m1 p1

/-- `getSchemaForMediaType` (source lines 348-399).  The request-body
`content` map is an insertion-ordered association list from media-type key
to the (optional) schema of that media type; the loop inspects its keys.
A missing or empty header is falsy (`if (!contentTypeHeader) return`), and
a parse failure returns no match. -/
def getSchemaForMediaType (contentTypeHeader : Option String)
    (content : List (String × Option Json)) : Option String :=
  match contentTypeHeader with
  | none => none
  | some hdr =>
    if hdr = "" then none
    else
      match contentTypeParse hdr with
      | none => none
      | some ct => mediaTypeLoop ct (content.map (fun kv => kv.1)) none 0

/-- Claim-side scoring (follows the words of the spec and claim C2):
a subtype-wildcard key whose type part equals the parsed type scores 2,
the full wildcard scores 1, anything else scores 0. -/
def mediaTypeScore (ct k : String) : Nat :=
  if part1 k = "*" ∧ part0 k = part0 ct then 2
  else if k = "*/*" then 1
  else 0

/-- Highest claim-side score over a key list. -/
def mediaTypeMaxScore (ct : String) : List String → Nat
  | [] => 0
  | k :: rest => max (mediaTypeScore ct k) (mediaTypeMaxScore ct rest)

/-- Definition following the claim's words (claim C2), to be compared with
`getSchemaForMediaType`: no match without a (parsable) header; the first
registered key containing the parsed type as a substring wins outright;
otherwise the first registered key attaining the best positive score wins;
no positive score means no match. -/
def mediaTypeSpecSelect (contentTypeHeader : Option String)
    (content : List (String × Option Json)) : Option String :=
  match contentTypeHeader with
  | none => none
  | some hdr =>
    if hdr = "" then none
    else
      match contentTypeParse hdr with
      | none => none
      | some ct =>
        let keys := content.map (fun kv => kv.1)
        match keys.find? (fun k => strContains k ct) with
        | some k => some k
        | none =>
          let best := mediaTypeMaxScore ct keys
          if best = 0 then none
          else keys.find? (fun k => mediaTypeScore ct k == best)

/-! ### Error shapes and the default error mapper (source lines 428-479) -/

/-- An engine (Ajv) violation object as the source consumes it:
`keyword`, `dataPath`, `message`, `params.missingProperty`, `params.ref`,
plus the `location` tag that `withAddedLocation` writes onto it. -/
structure AjvError where
  keyword : String
  dataPath : String
  message : String
  missingProperty : Option String
  ref : Option String
  location : Option String
deriving DecidableEq

/-- The public `OpenAPIRequestValidatorError` shape produced by the default
mapper (`path`, `errorCode` optional because the mapper deletes them). -/
structure MappedError where
  path : Option String
  errorCode : Option String
  message : String
  location : Option String
  schema : Option Json
deriving DecidableEq

/-- Anchored regex replace `/^pre\.?/ → ""`: strip `pre` and an optional
following dot, once, at the start only. -/
def stripPreDotOpt (pre s : String) : String :=
  if strHasPre (pre ++ ".") s then strDropPre (pre ++ ".") s
  else if strHasPre pre s then strDropPre pre s
  else s

/-- `stripBodyInfo` (source lines 457-471): for `location === 'body'`,
strip a leading `body.` from the path and rewrite a leading
`instance.body.` / `instance.body ` of the message to `instance.` /
`instance `. -/
def stripBodyInfo (e : MappedError) : MappedError :=
  if e.location = some "body" then
    let p := match e.path with
      | some s => some (if strHasPre "body." s then strDropPre "body." s else s)
      | none => none
    let m1 := if strHasPre "instance.body." e.message then
        "instance." ++ strDropPre "instance.body." e.message
      else e.message
    let m2 := if strHasPre "instance.body " m1 then
        "instance " ++ strDropPre "instance.body " m1
      else m1
    { e with path := p, message := m2 }
  else e

/-- `toOpenapiValidationError` (source lines 428-455), the default error
mapper: path is `"instance" + dataPath` (plus `.<missingProperty>`), the
envelope prefix is stripped once (`/^instance\.body\.?/` for body
violations, `/^instance\.?/` otherwise), an empty path is deleted,
`$ref` violations drop `errorCode` and carry `schema: {$ref}`, and the
result runs through `stripBodyInfo`. -/
def toOpenapiValidationError (e : AjvError) : MappedError :=
  let isRef := e.keyword = "$ref"
  let path0 := "instance" ++ e.dataPath
  let path1 := match e.missingProperty with
    | some p => path0 ++ "." ++ p
    | none => path0
  let path2 :=
    if e.location = some "body" then stripPreDotOpt "instance.body" path1
    else stripPreDotOpt "instance" path1
  stripBodyInfo {
    path := if path2 = "" then none else some path2
    errorCode := if isRef then none else some (e.keyword ++ ".openapi.validation")
    message := e.message
    location := e.location
    schema := if isRef then
        some (Json.obj [("$ref", match e.ref with | some r => Json.str r | none => Json.undef)])
      else none }

/-- `withAddedLocation` (source lines 473-479): tag each violation with the
request part it came from. -/
def withAddedLocation (loc : String) (errs : List AjvError) : List AjvError :=
  errs.map (fun e => { e with location := some loc })

/-! ### readOnly sanitization (source lines 556-580) -/

/-- JS `xs.splice(xs.indexOf(v), 1)` for a string `name` against a JSON
array: remove the element at the found index; when the element is absent,
`indexOf` yields `-1` and `splice(-1, 1)` removes the LAST element (a
no-op only on an empty array). -/
def spliceRemove (xs : List Json) (name : String) : List Json :=
  match xs.findIdx? (fun x => x == Json.str name) with
  | some i => xs.eraseIdx i
  | none => xs.dropLast

/-- `sanitizeReadonlyPropertiesFromRequired` (source lines 556-580): for a
schema with both `properties` and `required`, collect the names of
properties whose schema has `readOnly: true` and splice each out of the
`required` array as the source does.  (The source assumes `properties` is
an object and `required` an array; other shapes pass through.) -/
def sanitizeReadonlyPropertiesFromRequired (schema : Json) : Json :=
  if schema.hasField "properties" ∧ schema.hasField "required" then
    match schema.getField "properties", schema.getField "required" with
    | some (Json.obj props), some (Json.arr req) =>
      let readOnlyProps := props.filterMap (fun kv =>
        match kv.2 with
        | Json.obj pf =>
          if List.lookup "readOnly" pf = some (Json.bool true) then some kv.1 else none
        | _ => none)
      schema.setField "required" (Json.arr (readOnlyProps.foldl spliceRemove req))
    | _, _ => schema
  else schema

/-! ### Reference resolution (source lines 481-554)

The source mutates schema nodes in place; the embedding therefore has two
functions: `resolveAndSanitizeRequestBodySchema` is the value the source
RETURNS, and `resolveAndSanitizeRequestBodySchemaEffect` is what the
passed-in node looks like AFTER the call (its in-place mutation).  They
agree on every branch except the `$ref` branch, which computes a resolved
deep copy and returns it without touching the original node.  `reg` models
the Ajv schema registry (`v.getSchema(ref).schema`); `fuel` bounds the
recursion depth (the source recursion is unbounded and would not terminate
on cyclic references either). -/

mutual

/-- The return value of `resolveAndSanitizeRequestBodySchema`. -/
def resolveAndSanitizeRequestBodySchema (reg : List (String × Json)) :
    Nat → Json → Json
  | 0, s => s
  | fuel + 1, s =>
    if s.hasField "properties" then
      match s with
      | Json.obj fields =>
        Json.obj (fields.map (fun kv =>
          if kv.1 = "properties" then
            (kv.1, match kv.2 with
              | Json.obj props =>
                Json.obj (props.map (fun p =>
                  (p.1, resolveAndSanitizeRequestBodySchemaEffect reg fuel
                    (sanitizeReadonlyPropertiesFromRequired p.2))))
              | other => other)
          else kv))
      | _ => s
    else if s.hasField "$ref" then
      match s.getField "$ref" with
      | some (Json.str r) =>
        match List.lookup r reg with
        | some target =>
          resolveAndSanitizeRequestBodySchema reg fuel
            (sanitizeReadonlyPropertiesFromRequired target)
        | none => s
      | _ => s
    else if s.hasField "items" then
      match s.getField "items" with
      | some itemsV =>
        if itemsV.hasField "$ref" then
          match itemsV.getField "$ref" with
          | some (Json.str r) =>
            match List.lookup r reg with
            | some target =>
              s.setField "items" (resolveAndSanitizeRequestBodySchema reg fuel
                (sanitizeReadonlyPropertiesFromRequired target))
            | none => s
          | _ => s
        else s
      | none => s
    else if s.hasField "allOf" then
      match s.getField "allOf" with
      | some (Json.arr branches) =>
        s.setField "allOf" (Json.arr (branches.map (fun b =>
          resolveAndSanitizeRequestBodySchema reg fuel
            (sanitizeReadonlyPropertiesFromRequired b))))
      | _ => s
    else if s.hasField "oneOf" then
      match s.getField "oneOf" with
      | some (Json.arr branches) =>
        s.setField "oneOf" (Json.arr (branches.map (fun b =>
          resolveAndSanitizeRequestBodySchema reg fuel
            (sanitizeReadonlyPropertiesFromRequired b))))
      | _ => s
    else if s.hasField "anyOf" then
      match s.getField "anyOf" with
      | some (Json.arr branches) =>
        s.setField "anyOf" (Json.arr (branches.map (fun b =>
          resolveAndSanitizeRequestBodySchema reg fuel
            (sanitizeReadonlyPropertiesFromRequired b))))
      | _ => s
    else s

/-- The in-place effect of `resolveAndSanitizeRequestBodySchema` on its
argument: identical to the returned value on every branch except the
`$ref` branch, where the original node is left untouched. -/
def resolveAndSanitizeRequestBodySchemaEffect (reg : List (String × Json)) :
    Nat → Json → Json
  | fuel, s =>
    if ¬ s.hasField "properties" ∧ s.hasField "$ref" then s
    else resolveAndSanitizeRequestBodySchema reg fuel s

end

/-! ### OpenAPI v3 nullable transform (source lines 582-619) -/

/-- The node-local transformation step of
`recursiveTransformOpenAPIV3Definitions` (source lines 585-602): when a
node has a truthy `type` and `nullable === true`, either rewrite
`type`/`enum` into a two-branch `oneOf` (deleting `type` and `enum`) or
widen `type` to `[type, 'null']`; in both cases delete `nullable`. -/
def nullableStep (fields : List (String × Json)) : List (String × Json) :=
  match List.lookup "type" fields, List.lookup "nullable" fields with
  | some tv, some (Json.bool true) =>
    if tv.truthy then
      let afterMain :=
        match List.lookup "enum" fields with
        | some ev =>
          if ev.truthy then
            eraseKey (eraseKey
              (setKey fields "oneOf"
                (Json.arr [Json.obj [("type", Json.str "null")],
                  Json.obj [("type", tv), ("enum", ev)]]))
              "type") "enum"
          else setKey fields "type" (Json.arr [tv, Json.str "null"])
        | none => setKey fields "type" (Json.arr [tv, Json.str "null"])
      eraseKey afterMain "nullable"
    else fields
  | _, _ => fields

/-- `recursiveTransformOpenAPIV3Definitions` (source lines 582-610): apply
`nullableStep` to the node, then recurse into every member value (in JS
`typeof x === 'object'` is true for arrays too, so arrays are walked
element-wise; scalars are left alone).  `fuel` bounds the recursion depth:
the source recurses into the `oneOf` node it just constructed, which is
not structurally smaller. -/
def recursiveTransformOpenAPIV3Definitions : Nat → Json → Json
  | 0, j => j
  | fuel + 1, Json.obj fields =>
    Json.obj ((nullableStep fields).map (fun kv =>
      (kv.1, recursiveTransformOpenAPIV3Definitions fuel kv.2)))
  | fuel + 1, Json.arr xs => Json.arr (xs.map (recursiveTransformOpenAPIV3Definitions fuel))
  | _ + 1, j => j

/-- `transformOpenAPIV3Definitions` (source lines 612-619): deep-copy then
transform; a deep copy is the identity in a pure embedding. -/
def transformOpenAPIV3Definitions (fuel : Nat) (schema : Json) : Json :=
  match schema with
  | Json.obj _ => recursiveTransformOpenAPIV3Definitions fuel schema
  | Json.arr _ => recursiveTransformOpenAPIV3Definitions fuel schema
  | other => other

/-! ### JSON Schema fragment semantics

Modelled from the spec: the external JSON Schema validation engine (Ajv)
is out of the repository's scope and "assumed correct"; claim C3 speaks
about which values the normalized schema accepts, so the draft-07
semantics of the `type` / `enum` / `oneOf` keywords (the fragment the
nullable transform produces) is embedded here. -/

/-- Modelled from the spec: draft-07 `type` keyword matching for a single
type name. -/
def typeMatches (t : String) (v : Json) : Bool :=
  match v with
  | Json.null => t = "null"
  | Json.bool _ => t = "boolean"
  | Json.num _ => t = "number" ∨ t = "integer"
  | Json.str _ => t = "string"
  | Json.arr _ => t = "array"
  | Json.obj _ => t = "object"
  | Json.undef => false

/-- Modelled from the spec: the `type` and `enum` keywords of one schema
node (no nested applicators). -/
def validatesLeaf (schema v : Json) : Bool :=
  (match schema.getField "type" with
   | some (Json.str t) => typeMatches t v
   | some (Json.arr ts) => ts.any (fun tv =>
       match tv with
       | Json.str t => typeMatches t v
       | _ => false)
   | _ => true) &&
  (match schema.getField "enum" with
   | some (Json.arr es) => es.any (fun e => e == v)
   | _ => true)

/-- Modelled from the spec: one schema node with `type`, `enum` and a
one-level `oneOf` (exactly one branch must accept). -/
def validatesNode (schema v : Json) : Bool :=
  validatesLeaf schema v &&
  (match schema.getField "oneOf" with
   | some (Json.arr branches) => (branches.filter (fun b => validatesLeaf b v)).length = 1
   | _ => true)

/-! ### Header lowercasing (source lines 401-426) -/

/-- `lowercaseRequestHeaders` (source lines 401-407): rebuild the header
object with every key lower-cased (later duplicates overwrite). -/
def lowercaseRequestHeaders (headers : List (String × String)) : List (String × String) :=
  headers.foldl (fun acc kv => setKey acc (jsToLower kv.1) kv.2) []

/-- `lowercasedHeaders` (source lines 409-426): for a truthy headers
schema, re-key every property to its lower-cased name (iterating the
snapshot of the original keys, reading the current value, deleting the
key and writing the lower-cased key, exactly as the JS loop does), and
lower-case the `required` entries when `required` is a non-empty array. -/
def lowercasedHeaders (headersSchema : Option Json) : Option Json :=
  match headersSchema with
  | none => none
  | some s =>
    if s.truthy then
      let props := match s.getField "properties" with
        | some (Json.obj l) => l
        | _ => []
      let origKeys := props.map (fun kv => kv.1)
      let newProps := origKeys.foldl (fun acc k =>
        let v := (List.lookup k acc).getD Json.undef
        setKey (eraseKey acc k) (jsToLower k) v) props
      let s1 := s.setField "properties" (Json.obj newProps)
      let s2 := match s1.getField "required" with
        | some (Json.arr req) =>
          if req.length ≠ 0 then
            s1.setField "required" (Json.arr (req.map (fun x =>
              match x with
              | Json.str n => Json.str (jsToLower n)
              | other => other)))
          else s1
        | _ => s1
      some s2
    else headersSchema

/-! ### The request validator (`OpenAPIRequestValidator.validate`,
source lines 209-332) -/

/-- One error entry of a `ValidationResult`.  The source's `errors` array
is heterogeneous: mapped engine violations, the synthetic missing-body
schema-error object, or the unsupported-media-type error object. -/
inductive RespError where
  | mapped (e : MappedError) : RespError
  | schemaErr (location : String) (message : String) (schema : Option Json) : RespError
  | mediaErr (message : String) : RespError
deriving DecidableEq

/-- The `path` member of a result error (the schema-error and media-type
error objects carry none). -/
def RespError.pathOf : RespError → Option String
  | .mapped e => e.path
  | .schemaErr _ _ _ => none
  | .mediaErr _ => none

/-- The `{status, errors}` object `validate` returns on failure. -/
structure ValidationResult where
  status : Nat
  errors : List RespError
deriving DecidableEq

/-- An OpenAPI v3 `requestBody` object: `required` flag plus the
insertion-ordered `content` map from media type to its `schema` member. -/
structure RequestBodySpec where
  required : Bool
  content : List (String × Option Json)

/-- The compiled validator instance (the class fields set up by the
constructor).  Compiled Ajv predicates are abstract functions
`Json → Option (List AjvError)` (`none` = valid).  `legacyBody` couples
`this.bodySchema` with `this.validateBody` (the constructor compiles the
latter exactly when the former exists), and `requestBodyValidators` is
total over media-type keys (the constructor compiles one validator per
`content` key). -/
structure ValidatorState where
  legacyBody : Option (Json × (Json → Option (List AjvError)))
  isBodyRequired : Bool
  requestBody : Option RequestBodySpec
  requestBodyValidators : String → Json → Option (List AjvError)
  validateFormData : Option (Json → Option (List AjvError))
  validatePath : Option (Json → Option (List AjvError))
  validateHeaders : Option (Json → Option (List AjvError))
  validateQuery : Option (Json → Option (List AjvError))
  errorMapper : AjvError → MappedError

/-- An incoming request: `body` is `Json.undef` when absent, `headers`
is the (unique-keyed) header object, `params`/`query` may be `undef`. -/
structure Request where
  body : Json
  headers : List (String × String)
  params : Json
  query : Json

/-- JS `x || y`. -/
def jsOr (v d : Json) : Json :=
  if v.truthy then v else d

/-- Run one compiled predicate and tag its violations with a location
(`withAddedLocation`); a passing predicate contributes no errors. -/
def runCheck (f : Json → Option (List AjvError)) (loc : String) (x : Json) :
    List AjvError :=
  match f x with
  | none => []
  | some errs => withAddedLocation loc errs

/-- Run an optional compiled predicate (absent validators are skipped). -/
def checkPart (v? : Option (Json → Option (List AjvError))) (loc : String) (x : Json) :
    List AjvError :=
  match v? with
  | none => []
  | some f => runCheck f loc x

/-- The headers object as JSON data for the compiled headers predicate. -/
def headersJson (headers : List (String × String)) : Json :=
  Json.obj (headers.map (fun kv => (kv.1, Json.str kv.2)))

/-- The missing-body schema-error message (source lines 227 and 269). -/
def missingBodyMessage : String :=
  "request.body was not present in the request.  Is a body-parser being used?"

/-- The synthetic field error pushed when a required body has no
content-type header (source lines 247-253). -/
def mediaTypeNotSpecifiedError : AjvError :=
  ⟨"required", ".body", "media type is not specified", none, none, some "body"⟩

/-- The error-collection phase of `validate` (source lines 209-312): the
aggregated field-error list, the `schemaError` slot and the
`mediaTypeError` slot after all parts ran. -/
def validateCollect (vs : ValidatorState) (req : Request) :
    List AjvError × Option RespError × Option RespError :=
  let bodyTruthy := req.body.truthy
  let p1 : List AjvError × Option RespError :=
    match vs.legacyBody with
    | none => ([], none)
    | some bsf =>
      if bodyTruthy then
        (runCheck bsf.2 "body" (Json.obj [("body", req.body)]), none)
      else if vs.isBodyRequired then
        ([], some (RespError.schemaErr "body" missingBodyMessage (some bsf.1)))
      else ([], none)
  let p2 : List AjvError × Option RespError × Option RespError :=
    match vs.requestBody with
    | none => (p1.1, p1.2, none)
    | some rb =>
      let contentType := List.lookup "content-type" req.headers
      match getSchemaForMediaType contentType rb.content with
      | none =>
        match contentType with
        | some ct =>
          if ct ≠ "" then
            (p1.1, p1.2, some (RespError.mediaErr ("Unsupported Content-Type " ++ ct)))
          else if vs.isBodyRequired then
            (p1.1 ++ [mediaTypeNotSpecifiedError], p1.2, none)
          else (p1.1, p1.2, none)
        | none =>
          if vs.isBodyRequired then
            (p1.1 ++ [mediaTypeNotSpecifiedError], p1.2, none)
          else (p1.1, p1.2, none)
      | some mt =>
        if bodyTruthy then
          (p1.1 ++ runCheck (vs.requestBodyValidators mt) "body"
            (Json.obj [("body", req.body)]), p1.2, none)
        else if vs.isBodyRequired then
          (p1.1, some (RespError.schemaErr "body" missingBodyMessage
            ((List.lookup mt rb.content).getD none)), none)
        else (p1.1, p1.2, none)
  let e3 := p2.1 ++ (match vs.validateFormData with
    | some f => if p2.2.1 = none then runCheck f "formData" req.body else []
    | none => [])
  let e4 := e3 ++ checkPart vs.validatePath "path" (jsOr req.params (Json.obj []))
  let e5 := e4 ++ checkPart vs.validateHeaders "headers"
    (headersJson (lowercaseRequestHeaders req.headers))
  let e6 := e5 ++ checkPart vs.validateQuery "query" (jsOr req.query (Json.obj []))
  (e6, p2.2.1, p2.2.2)

/-- The final classification of `validate` (source lines 314-331). -/
def classifyOutcome (mapper : AjvError → MappedError) (errors : List AjvError)
    (schemaError mediaTypeError : Option RespError) : Option ValidationResult :=
  if errors ≠ [] then
    some ⟨400, errors.map (fun e => RespError.mapped (mapper e))⟩
  else
    match schemaError with
    | some se => some ⟨400, [se]⟩
    | none =>
      match mediaTypeError with
      | some me => some ⟨415, [me]⟩
      | none => none

/-- `OpenAPIRequestValidator.validate` (source lines 209-332): collect
per-part errors, then classify. -/
def validate (vs : ValidatorState) (req : Request) : Option ValidationResult :=
  let c := validateCollect vs req
  classifyOutcome vs.errorMapper c.1 c.2.1 c.2.2

/-! ### Claim C1 -/

/-- C1: one `validate` call produces at most one result, classified with a
fixed priority: any collected field errors give
`{status: 400, errors: errors.map(errorMapper)}`; otherwise a recorded
missing-body schema-error gives `{status: 400, errors: [schemaError]}`;
otherwise a recorded media-type error gives
`{status: 415, errors: [mediaTypeError]}`; otherwise `validate` returns
no result.  In particular, when both field errors and a missing-body
schema-error exist, the field errors win. -/
theorem c1_outcome_priority (vs : ValidatorState) (req : Request) :
    ((validateCollect vs req).1 ≠ [] →
      validate vs req = some ⟨400, (validateCollect vs req).1.map
        (fun e => RespError.mapped (vs.errorMapper e))⟩)
    ∧ ((validateCollect vs req).1 = [] → ∀ se, (validateCollect vs req).2.1 = some se →
      validate vs req = some ⟨400, [se]⟩)
    ∧ ((validateCollect vs req).1 = [] → (validateCollect vs req).2.1 = none →
      ∀ me, (validateCollect vs req).2.2 = some me →
      validate vs req = some ⟨415, [me]⟩)
    ∧ ((validateCollect vs req).1 = [] → (validateCollect vs req).2.1 = none →
      (validateCollect vs req).2.2 = none → validate vs req = none)
    ∧ ((validateCollect vs req).1 ≠ [] → (validateCollect vs req).2.1 ≠ none →
      validate vs req = some ⟨400, (validateCollect vs req).1.map
        (fun e => RespError.mapped (vs.errorMapper e))⟩) := by
  refine ⟨?_, ?_, ?_, ?_, ?_⟩
  · intro h
    simp [validate, classifyOutcome, h]
  · intro h se hse
    simp [validate, classifyOutcome, h, hse]
  · intro h hse me hme
    simp [validate, classifyOutcome, h, hse, hme]
  · intro h hse hme
    simp [validate, classifyOutcome, h, hse, hme]
  · intro h _
    simp [validate, classifyOutcome, h]

/-- A concrete validator with a legacy body schema, a required body and a
failing query predicate: exercises the field-errors-beat-schema-error
priority. -/
def c1WitnessState : ValidatorState :=
  ⟨some (Json.obj [("x", Json.null)], fun _ => none), true, none, fun _ _ => none,
    none, none, none,
    some (fun _ => some [⟨"type", ".q", "bad", none, none, none⟩]),
    toOpenapiValidationError⟩

/-- A request with no body (so the required legacy body records a
missing-body schema-error). -/
def c1WitnessRequest : Request :=
  ⟨Json.undef, [], Json.undef, Json.undef⟩

theorem c1_outcome_priority_witness :
    (validateCollect c1WitnessState c1WitnessRequest).1 ≠ []
    ∧ (validateCollect c1WitnessState c1WitnessRequest).2.1 ≠ none
    ∧ validate c1WitnessState c1WitnessRequest = some ⟨400,
        [RespError.mapped ⟨some "q", some "type.openapi.validation", "bad",
          some "query", none⟩]⟩ :=
  ⟨by decide, by decide, by
    have h := (c1_outcome_priority c1WitnessState c1WitnessRequest).2.2.2.2
      (by decide) (by decide)
    rw [h]
    decide⟩

/-! ### Claim C2 -/
theorem part1_of_wildcard (k : String) (h : k = "*/*") : part1 k = "*" := by
  subst h
  decide

/-- One iteration of the matching loop collapses to: adopt `k` with its
score exactly when that score strictly beats the running points. -/
theorem mediaTypeLoop_step (ct k : String) (rest : List String) (m : Option String)
    (pts : Nat) (hnc : strContains k ct = false) :
    mediaTypeLoop ct (k :: rest) m pts =
      if pts < mediaTypeScore ct k then
        mediaTypeLoop ct rest (some k) (mediaTypeScore ct k)
      else mediaTypeLoop ct rest m pts := by
  rw [mediaTypeLoop]
  rw [if_neg (by simp [hnc])]
  by_cases hA : part1 k = "*"
  · rw [if_neg (by simp [hA])]
    by_cases hB : part0 ct = part0 k
    · have hs : mediaTypeScore ct k = 2 := by
        rw [mediaTypeScore, if_pos ⟨hA, hB.symm⟩]
      rw [hs]
      by_cases hp : pts < 2
      · rw [if_pos hp]
        rw [if_pos]
        refine ⟨hB, ?_⟩
        by_cases hW : k = "*/*" ∧ pts < 1
        · rw [if_pos hW]
          omega
        · rw [if_neg hW]
          omega
      · rw [if_neg hp]
        have hW : ¬ (k = "*/*" ∧ pts < 1) := by
          rintro ⟨_, h1⟩
          omega
        rw [if_neg hW]
        rw [if_neg hW]
        rw [if_neg]
        rintro ⟨_, h2⟩
        omega
    · rw [if_neg (by rintro ⟨h1, _⟩; exact hB h1)]
      by_cases hW : k = "*/*"
      · have hs : mediaTypeScore ct k = 1 := by
          rw [mediaTypeScore, if_neg (by rintro ⟨_, h1⟩; exact hB h1.symm), if_pos hW]
        rw [hs]
        by_cases hp : pts < 1
        · rw [if_pos hp, if_pos ⟨hW, hp⟩, if_pos ⟨hW, hp⟩]
        · rw [if_neg hp, if_neg (by rintro ⟨_, h1⟩; exact hp h1),
            if_neg (by rintro ⟨_, h1⟩; exact hp h1)]
      · have hs : mediaTypeScore ct k = 0 := by
          rw [mediaTypeScore, if_neg (by rintro ⟨_, h1⟩; exact hB h1.symm), if_neg hW]
        rw [hs]
        rw [if_neg (by rintro ⟨h1, _⟩; exact hW h1)]
        rw [if_neg (by rintro ⟨h1, _⟩; exact hW h1)]
        rw [if_neg (by omega)]
  · rw [if_pos hA]
    have hW : ¬ k = "*/*" := fun h => hA (part1_of_wildcard k h)
    have hs : mediaTypeScore ct k = 0 := by
      rw [mediaTypeScore, if_neg (by rintro ⟨h1, _⟩; exact hA h1), if_neg hW]
    rw [hs]
    rw [if_neg (by rintro ⟨h1, _⟩; exact hW h1)]
    rw [if_neg (by rintro ⟨h1, _⟩; exact hW h1)]
    rw [if_neg (by omega)]

/-- The matching loop computes the claim-side selection: the first
substring-containing key wins immediately; otherwise the first key whose
score attains the maximum wins, provided that maximum beats the initial
points; otherwise the initial `match` value is returned. -/
theorem mediaTypeLoop_spec (ct : String) (keys : List String) :
    ∀ (m : Option String) (pts : Nat),
    mediaTypeLoop ct keys m pts =
      match keys.find? (fun k => strContains k ct) with
      | some k => some k
      | none =>
        if pts < mediaTypeMaxScore ct keys then
          keys.find? (fun k => mediaTypeScore ct k == mediaTypeMaxScore ct keys)
        else m := by
  induction keys with
  | nil =>
    intro m pts
    simp [mediaTypeLoop, mediaTypeMaxScore]
  | cons k rest ih =>
    intro m pts
    by_cases hc : strContains k ct = true
    · rw [@List.find?_cons_of_pos _ (fun k2 => strContains k2 ct) k rest hc]
      rw [mediaTypeLoop, if_pos hc]
    · have hcf : strContains k ct = false := by
        simp at hc
        exact hc
      rw [@List.find?_cons_of_neg _ (fun k2 => strContains k2 ct) k rest hc]
      rw [mediaTypeLoop_step ct k rest m pts hcf]
      have hmax : mediaTypeMaxScore ct (k :: rest) =
          max (mediaTypeScore ct k) (mediaTypeMaxScore ct rest) := rfl
      cases hfind : rest.find? (fun k2 => strContains k2 ct) with
      | some k2 =>
        by_cases hp : pts < mediaTypeScore ct k
        · rw [if_pos hp, ih, hfind]
        · rw [if_neg hp, ih, hfind]
      | none =>
        by_cases hp : pts < mediaTypeScore ct k
        · rw [if_pos hp, ih, hfind]
          simp only
          rcases Nat.lt_or_ge (mediaTypeScore ct k) (mediaTypeMaxScore ct rest) with hlt | hge
          · rw [if_pos hlt, hmax, Nat.max_eq_right (Nat.le_of_lt hlt)]
            rw [if_pos (by omega)]
            rw [@List.find?_cons_of_neg _
              (fun k2 => mediaTypeScore ct k2 == mediaTypeMaxScore ct rest) k rest
              (by simp; omega)]
          · rw [if_neg (by omega), hmax, Nat.max_eq_left hge]
            rw [if_pos hp]
            rw [@List.find?_cons_of_pos _
              (fun k2 => mediaTypeScore ct k2 == mediaTypeScore ct k) k rest (by simp)]
        · rw [if_neg hp, ih, hfind]
          simp only
          rcases Nat.lt_or_ge pts (mediaTypeMaxScore ct rest) with hlt | hge
          · rw [if_pos hlt, hmax, Nat.max_eq_right (by omega)]
            rw [if_pos hlt]
            rw [@List.find?_cons_of_neg _
              (fun k2 => mediaTypeScore ct k2 == mediaTypeMaxScore ct rest) k rest
              (by simp; omega)]
          · rw [if_neg (by omega), hmax]
            rw [if_neg (by omega)]

/-- C2: `getSchemaForMediaType` implements the claimed selection: no match
without a header; the first registered key containing the parsed
type/subtype as a substring wins immediately; otherwise the best-scoring
key wins (subtype wildcard matching the type scores 2, full wildcard
scores 1, first-registered wins ties), and nothing matches when no key
scores above 0.  The three concrete scenarios of the claim follow. -/
theorem c2_media_type_selection :
    (∀ (hdr : Option String) (content : List (String × Option Json)),
      getSchemaForMediaType hdr content = mediaTypeSpecSelect hdr content)
    ∧ (∀ s1 s2 : Option Json, getSchemaForMediaType (some "application/json")
        [("application/json", s1), ("*/*", s2)] = some "application/json")
    ∧ (∀ s1 s2 : Option Json, getSchemaForMediaType (some "text/x-custom")
        [("text/*", s1), ("*/*", s2)] = some "text/*")
    ∧ (∀ s1 s2 : Option Json, getSchemaForMediaType (some "application/json")
        [("text/plain", s1), ("*/*", s2)] = some "*/*") := by
  refine ⟨?_, ?_, ?_, ?_⟩
  · intro hdr content
    cases hdr with
    | none => rfl
    | some h =>
      rw [getSchemaForMediaType, mediaTypeSpecSelect]
      by_cases hh : h = ""
      · rw [if_pos hh, if_pos hh]
      · rw [if_neg hh, if_neg hh]
        cases hp : contentTypeParse h with
        | none => simp only [hp]
        | some ct =>
          simp only [hp]
          rw [mediaTypeLoop_spec]
          cases hfind : (content.map (fun kv => kv.1)).find? (fun k => strContains k ct) with
          | some k => simp only [hfind]
          | none =>
            simp only [hfind]
            cases hbest : mediaTypeMaxScore ct (content.map (fun kv => kv.1)) with
            | zero => simp [hbest]
            | succ n => simp [hbest]
  · intro s1 s2
    rfl
  · intro s1 s2
    rfl
  · intro s1 s2
    rfl

/-! ### Claim C3 -/

/-- A schema node carrying `type`, `enum`, and `nullable: true`. -/
def nullableEnumNode (ty : String) (es : List Json) : Json :=
  Json.obj [("type", Json.str ty), ("enum", Json.arr es), ("nullable", Json.bool true)]

theorem recursiveTransform_atom (g : Nat) (x : Json) (h : x.isAtom = true) :
    recursiveTransformOpenAPIV3Definitions g x = x := by
  cases g with
  | zero => rfl
  | succ g => cases x <;> simp_all [Json.isAtom, recursiveTransformOpenAPIV3Definitions]

theorem recursiveTransform_atomArr (g : Nat) (es : List Json)
    (h : ∀ x ∈ es, x.isAtom = true) :
    recursiveTransformOpenAPIV3Definitions g (Json.arr es) = Json.arr es := by
  cases g with
  | zero => rfl
  | succ g =>
    simp only [recursiveTransformOpenAPIV3Definitions, Json.arr.injEq]
    rw [List.map_congr_left (fun x hx => recursiveTransform_atom g x (h x hx))]
    exact List.map_id es

theorem nullableStep_eq_self (fields : List (String × Json))
    (h : List.lookup "nullable" fields ≠ some (Json.bool true)) :
    nullableStep fields = fields := by
  unfold nullableStep
  cases hlt : List.lookup "type" fields with
  | none =>
    cases hln : List.lookup "nullable" fields with
    | none => rfl
    | some v => cases v <;> rfl
  | some tv =>
    cases hln : List.lookup "nullable" fields with
    | none => rfl
    | some v =>
      cases v with
      | bool b =>
        cases b with
        | false => rfl
        | true => exact absurd hln h
      | undef => rfl
      | null => rfl
      | num n => rfl
      | str s => rfl
      | arr xs => rfl
      | obj fs => rfl

theorem recursiveTransform_typeNullBranch (g : Nat) :
    recursiveTransformOpenAPIV3Definitions g (Json.obj [("type", Json.str "null")]) =
      Json.obj [("type", Json.str "null")] := by
  cases g with
  | zero => rfl
  | succ g2 =>
    simp only [recursiveTransformOpenAPIV3Definitions]
    rw [nullableStep_eq_self _ (by simp [List.lookup])]
    simp [recursiveTransform_atom g2 (Json.str "null") (by simp [Json.isAtom])]

theorem recursiveTransform_typeEnumBranch (g : Nat) (ty : String) (es : List Json)
    (hatoms : ∀ x ∈ es, x.isAtom = true) :
    recursiveTransformOpenAPIV3Definitions g
      (Json.obj [("type", Json.str ty), ("enum", Json.arr es)]) =
      Json.obj [("type", Json.str ty), ("enum", Json.arr es)] := by
  cases g with
  | zero => rfl
  | succ g2 =>
    simp only [recursiveTransformOpenAPIV3Definitions]
    rw [nullableStep_eq_self _ (by simp [List.lookup])]
    simp [recursiveTransform_atom g2 (Json.str ty) (by simp [Json.isAtom]),
      recursiveTransform_atomArr g2 es hatoms]

theorem typeMatches_null_of_ne (v : Json) (h : v ≠ Json.null) :
    typeMatches "null" v = false := by
  cases v <;> simp_all [typeMatches]

/-- The transform rewrites the nullable-enum node into the two-branch
`oneOf` node and nothing else. -/
theorem recursiveTransform_nullableEnumNode (ty : String) (es : List Json) (f : Nat)
    (hty0 : ty ≠ "") (hatoms : ∀ x ∈ es, x.isAtom = true) :
    recursiveTransformOpenAPIV3Definitions (f + 1) (nullableEnumNode ty es) =
      Json.obj [("oneOf", Json.arr
        [Json.obj [("type", Json.str "null")],
         Json.obj [("type", Json.str ty), ("enum", Json.arr es)]])] := by
  simp only [nullableEnumNode, recursiveTransformOpenAPIV3Definitions]
  have hstep : nullableStep
      [("type", Json.str ty), ("enum", Json.arr es), ("nullable", Json.bool true)] =
      [("oneOf", Json.arr [Json.obj [("type", Json.str "null")],
        Json.obj [("type", Json.str ty), ("enum", Json.arr es)]])] := by
    simp [nullableStep, List.lookup, Json.truthy, hty0, setKey, eraseKey]
  rw [hstep]
  simp only [List.map_cons, List.map_nil, Json.obj.injEq, List.cons.injEq, Prod.mk.injEq,
    true_and, and_true]
  cases f with
  | zero => rfl
  | succ g =>
    simp only [recursiveTransformOpenAPIV3Definitions, List.map_cons, List.map_nil,
      Json.arr.injEq, List.cons.injEq]
    exact ⟨recursiveTransform_typeNullBranch g,
      recursiveTransform_typeEnumBranch g ty es hatoms, trivial⟩

/-- C3: a node with `type`, `nullable: true` and `enum` is replaced by
`oneOf: [{type: 'null'}, {type, enum}]` with `type`, `enum` and `nullable`
deleted; the transform reaches every nested member of every (non-nullable)
wrapper node; and the normalized node accepts exactly `null` and the
original enum values (engine semantics for the `type`/`enum`/`oneOf`
fragment modelled from the spec). -/
theorem c3_nullable_enum_normalization (ty : String) (es : List Json) (f : Nat)
    (hty0 : ty ≠ "") (htynull : ty ≠ "null")
    (hatoms : ∀ x ∈ es, x.isAtom = true)
    (htyped : ∀ x ∈ es, typeMatches ty x = true) :
    (recursiveTransformOpenAPIV3Definitions (f + 1) (nullableEnumNode ty es) =
      Json.obj [("oneOf", Json.arr
        [Json.obj [("type", Json.str "null")],
         Json.obj [("type", Json.str ty), ("enum", Json.arr es)]])])
    ∧ ((recursiveTransformOpenAPIV3Definitions (f + 1) (nullableEnumNode ty es)).getField
        "type" = none
      ∧ (recursiveTransformOpenAPIV3Definitions (f + 1) (nullableEnumNode ty es)).getField
        "enum" = none
      ∧ (recursiveTransformOpenAPIV3Definitions (f + 1) (nullableEnumNode ty es)).getField
        "nullable" = none)
    ∧ (∀ fields : List (String × Json),
        List.lookup "nullable" fields ≠ some (Json.bool true) →
        recursiveTransformOpenAPIV3Definitions (f + 1) (Json.obj fields) =
          Json.obj (fields.map (fun kv =>
            (kv.1, recursiveTransformOpenAPIV3Definitions f kv.2))))
    ∧ (∀ v : Json,
        validatesNode (recursiveTransformOpenAPIV3Definitions (f + 1)
          (nullableEnumNode ty es)) v = true
        ↔ (v = Json.null ∨ v ∈ es)) := by
  have hmain := recursiveTransform_nullableEnumNode ty es f hty0 hatoms
  refine ⟨hmain, ?_, ?_, ?_⟩
  · rw [hmain]
    refine ⟨rfl, rfl, rfl⟩
  · intro fields hf
    simp only [recursiveTransformOpenAPIV3Definitions]
    rw [nullableStep_eq_self fields hf]
  · intro v
    rw [hmain]
    by_cases hv : v = Json.null
    · subst hv
      have h2 : typeMatches ty Json.null = false := by
        simp [typeMatches, htynull]
      simp [validatesNode, validatesLeaf, Json.getField, List.lookup, typeMatches,
        h2, htynull, List.filter]
    · have h1 : typeMatches "null" v = false := typeMatches_null_of_ne v hv
      by_cases hm : v ∈ es
      · have h2 : typeMatches ty v = true := htyped v hm
        have h3 : es.any (fun e => e == v) = true := by
          simp only [List.any_eq_true, beq_iff_eq]
          exact ⟨v, hm, rfl⟩
        simp [validatesNode, validatesLeaf, Json.getField, List.lookup, h1, h2, h3,
          List.filter, hv, hm]
      · have h3 : es.any (fun e => e == v) = false := by
          simp only [List.any_eq_false, beq_iff_eq]
          intro x hx hxv
          exact hm (hxv ▸ hx)
        simp [validatesNode, validatesLeaf, Json.getField, List.lookup, h1, h3,
          List.filter, hv, hm]

theorem c3_nullable_enum_normalization_witness :
    recursiveTransformOpenAPIV3Definitions 1 (nullableEnumNode "string" [Json.str "a"]) =
      Json.obj [("oneOf", Json.arr [Json.obj [("type", Json.str "null")],
        Json.obj [("type", Json.str "string"), ("enum", Json.arr [Json.str "a"])]])]
    ∧ (validatesNode (recursiveTransformOpenAPIV3Definitions 1
        (nullableEnumNode "string" [Json.str "a"])) Json.null = true
      ↔ (Json.null = Json.null ∨ Json.null ∈ [Json.str "a"]))
    ∧ (validatesNode (recursiveTransformOpenAPIV3Definitions 1
        (nullableEnumNode "string" [Json.str "a"])) (Json.str "b") = true
      ↔ (Json.str "b" = Json.null ∨ Json.str "b" ∈ [Json.str "a"])) := by
  have h := c3_nullable_enum_normalization "string" [Json.str "a"] 0
    (by decide) (by decide) (by decide) (by decide)
  exact ⟨h.1, h.2.2.2 Json.null, h.2.2.2 (Json.str "b")⟩

/-! ### Claim C4 -/

/-- C4: the claim says readOnly sanitization removes from `required`
exactly the names of readOnly properties and nothing else, for every
input including those where a readOnly property's name is absent from
`required`.  The code computes `required.splice(required.indexOf(name), 1)`;
when `name` is absent, `indexOf` yields `-1` and `splice(-1, 1)` removes
the LAST entry.  Evaluated at such an input: the only readOnly property
`id` is not in `required`, and the non-readOnly, genuinely required
property name `"name"` is removed from `required`. -/
theorem c4_readonly_splice_removes_last :
    sanitizeReadonlyPropertiesFromRequired (Json.obj
      [("properties", Json.obj
        [("id", Json.obj [("readOnly", Json.bool true)]),
         ("name", Json.obj [("type", Json.str "string")])]),
       ("required", Json.arr [Json.str "name"])]) =
    Json.obj
      [("properties", Json.obj
        [("id", Json.obj [("readOnly", Json.bool true)]),
         ("name", Json.obj [("type", Json.str "string")])]),
       ("required", Json.arr [])] := by
  decide

/-! ### Claim C5 -/

/-- C5: for a body violation, the default mapper strips the `instance`
envelope prefix and the `body` location prefix each exactly once, making
the public path relative to the validated payload; in particular the
engine path `.body.items[0].name` (rendered `instance.body.items[0].name`)
maps to `items[0].name`. -/
theorem c5_body_error_path_stripping :
    (∀ (k msg rest : String), strHasPre "body." rest = false → rest ≠ "" →
      (toOpenapiValidationError ⟨k, ".body." ++ rest, msg, none, none, some "body"⟩).path
        = some rest)
    ∧ (∀ (k msg rest : String),
      (toOpenapiValidationError ⟨k, ".body.body." ++ rest, msg, none, none, some "body"⟩).path
        = some rest)
    ∧ (toOpenapiValidationError
        ⟨"type", ".body.items[0].name", "should be string", none, none, some "body"⟩).path
        = some "items[0].name" := by
  refine ⟨?_, ?_, ?_⟩
  · intro k msg rest hnb hne
    have h1 : ("instance" ++ (".body." ++ rest) : String) = ("instance.body" ++ ".") ++ rest := by
      rw [← String.append_assoc]
      have hl : ("instance" ++ ".body." : String) = "instance.body" ++ "." := by decide
      rw [hl]
    have hpath2 : stripPreDotOpt "instance.body" ("instance" ++ (".body." ++ rest)) = rest := by
      rw [h1, stripPreDotOpt, if_pos (strHasPre_append ("instance.body" ++ ".") rest),
        strDropPre_append]
    simp [toOpenapiValidationError, stripBodyInfo, hpath2, hne, hnb]
  · intro k msg rest
    have h1 : ("instance" ++ (".body.body." ++ rest) : String) =
        ("instance.body" ++ ".") ++ ("body." ++ rest) := by
      rw [← String.append_assoc]
      have hl : ("instance" ++ ".body.body." : String) = ("instance.body" ++ ".") ++ "body." := by
        decide
      rw [hl, String.append_assoc]
    have hpath2 : stripPreDotOpt "instance.body" ("instance" ++ (".body.body." ++ rest)) =
        "body." ++ rest := by
      rw [h1, stripPreDotOpt, if_pos (strHasPre_append ("instance.body" ++ ".") ("body." ++ rest)),
        strDropPre_append]
    have hne : ("body." ++ rest : String) ≠ "" := by
      intro h
      have h2 := congrArg String.data h
      simp [String.data_append] at h2
    simp [toOpenapiValidationError, stripBodyInfo, hpath2, hne,
      strHasPre_append "body." rest, strDropPre_append "body." rest]
  · decide

theorem c5_body_error_path_stripping_witness :
    strHasPre "body." "items[0].name" = false ∧ "items[0].name" ≠ "" ∧
    (toOpenapiValidationError
      ⟨"maxLength", ".body." ++ "items[0].name", "m", none, none, some "body"⟩).path
      = some "items[0].name" :=
  ⟨by decide, by decide,
    c5_body_error_path_stripping.1 "maxLength" "m" "items[0].name" (by decide) (by decide)⟩

/-! ### Claims C6, C7, C10 -/

/-- "This optional compiled predicate, if configured, accepts this input." -/
def optPasses (v? : Option (Json → Option (List AjvError))) (x : Json) : Prop :=
  ∀ f, v? = some f → f x = none

theorem checkPart_nil (v? : Option (Json → Option (List AjvError))) (loc : String)
    (x : Json) (h : optPasses v? x) : checkPart v? loc x = [] := by
  cases hv : v? with
  | none => rfl
  | some f => simp [checkPart, runCheck, h f hv]

/-- C6: with a required requestBody whose content includes
`application/json`, a request carrying `Content-Type: application/json`
and no body (and all other configured checks passing) yields status 400
with exactly one error, located at `body`, carrying the matched media
type's schema, and with no `path` member at all (so no `body.` envelope
prefix can leak). -/
theorem c6_missing_required_body (rb : RequestBodySpec) (mt : String) (s : Option Json)
    (rbv : String → Json → Option (List AjvError))
    (vfd vp vh vq : Option (Json → Option (List AjvError)))
    (mapper : AjvError → MappedError)
    (body : Json) (hdrs : List (String × String)) (params query : Json)
    (hmatch : getSchemaForMediaType (some "application/json") rb.content = some mt)
    (hschema : List.lookup mt rb.content = some s)
    (hct : List.lookup "content-type" hdrs = some "application/json")
    (hbody : body.truthy = false)
    (hp : optPasses vp (jsOr params (Json.obj [])))
    (hh : optPasses vh (headersJson (lowercaseRequestHeaders hdrs)))
    (hq : optPasses vq (jsOr query (Json.obj []))) :
    validate ⟨none, true, some rb, rbv, vfd, vp, vh, vq, mapper⟩ ⟨body, hdrs, params, query⟩
      = some ⟨400, [RespError.schemaErr "body" missingBodyMessage s]⟩
    ∧ (RespError.schemaErr "body" missingBodyMessage s).pathOf = none := by
  constructor
  · have hcollect : validateCollect ⟨none, true, some rb, rbv, vfd, vp, vh, vq, mapper⟩
        ⟨body, hdrs, params, query⟩ =
        ([], some (RespError.schemaErr "body" missingBodyMessage s), none) := by
      simp only [validateCollect, hct, hmatch, hbody, hschema]
      simp [checkPart_nil vp "path" _ hp, checkPart_nil vh "headers" _ hh,
        checkPart_nil vq "query" _ hq]
      cases vfd <;> simp
    simp [validate, hcollect, classifyOutcome]
  · rfl

/-- C7: with a required requestBody whose only configured media type is
`application/json`, a request carrying `Content-Type: application/xml`
(and all other configured checks passing) yields status 415 with the
single error message `Unsupported Content-Type application/xml`. -/
theorem c7_unsupported_media_type (s : Option Json)
    (rbv : String → Json → Option (List AjvError))
    (vfd vp vh vq : Option (Json → Option (List AjvError)))
    (mapper : AjvError → MappedError)
    (body : Json) (hdrs : List (String × String)) (params query : Json)
    (hct : List.lookup "content-type" hdrs = some "application/xml")
    (hfd : optPasses vfd body)
    (hp : optPasses vp (jsOr params (Json.obj [])))
    (hh : optPasses vh (headersJson (lowercaseRequestHeaders hdrs)))
    (hq : optPasses vq (jsOr query (Json.obj []))) :
    validate ⟨none, true, some ⟨true, [("application/json", s)]⟩, rbv, vfd, vp, vh, vq, mapper⟩
      ⟨body, hdrs, params, query⟩
      = some ⟨415, [RespError.mediaErr "Unsupported Content-Type application/xml"]⟩ := by
  have hnomatch : getSchemaForMediaType (some "application/xml")
      (⟨true, [("application/json", s)]⟩ : RequestBodySpec).content = none := rfl
  have hcollect : validateCollect
      ⟨none, true, some ⟨true, [("application/json", s)]⟩, rbv, vfd, vp, vh, vq, mapper⟩
      ⟨body, hdrs, params, query⟩ =
      ([], none, some (RespError.mediaErr ("Unsupported Content-Type " ++ "application/xml"))) := by
    simp only [validateCollect, hct, hnomatch]
    simp [checkPart_nil vp "path" _ hp, checkPart_nil vh "headers" _ hh,
      checkPart_nil vq "query" _ hq]
    cases hv : vfd with
    | none => simp
    | some f => simp [runCheck, hfd f hv]
  rw [validate, hcollect]
  simp [classifyOutcome]

/-- C10: with a non-required requestBody and no legacy body schema, a
request that carries a body but no `content-type` header matches no media
type and undergoes no body validation at all (for EVERY set of compiled
media-type validators), and `validate` returns no result whenever the
formData, path, header and query checks pass. -/
theorem c10_no_content_type_skips_body (rb : RequestBodySpec)
    (rbv : String → Json → Option (List AjvError))
    (vfd vp vh vq : Option (Json → Option (List AjvError)))
    (mapper : AjvError → MappedError)
    (body : Json) (hdrs : List (String × String)) (params query : Json)
    (hrbreq : rb.required = false)
    (hct : List.lookup "content-type" hdrs = none)
    (hbody : body.truthy = true)
    (hfd : optPasses vfd body)
    (hp : optPasses vp (jsOr params (Json.obj [])))
    (hh : optPasses vh (headersJson (lowercaseRequestHeaders hdrs)))
    (hq : optPasses vq (jsOr query (Json.obj []))) :
    getSchemaForMediaType (List.lookup "content-type" hdrs) rb.content = none
    ∧ validate ⟨none, false, some rb, rbv, vfd, vp, vh, vq, mapper⟩
        ⟨body, hdrs, params, query⟩ = none := by
  constructor
  · rw [hct]
    rfl
  · have hcollect : validateCollect
        ⟨none, false, some rb, rbv, vfd, vp, vh, vq, mapper⟩
        ⟨body, hdrs, params, query⟩ = ([], none, none) := by
      simp only [validateCollect, hct]
      simp only [getSchemaForMediaType]
      simp [checkPart_nil vp "path" _ hp, checkPart_nil vh "headers" _ hh,
        checkPart_nil vq "query" _ hq]
      cases hv : vfd with
      | none => simp
      | some f => simp [runCheck, hfd f hv]
    rw [validate, hcollect]
    rfl

theorem c6_missing_required_body_witness :
    validate ⟨none, true,
        some ⟨true, [("application/json", some (Json.obj [("type", Json.str "object")]))]⟩,
        fun _ _ => none, none, none, none, none, toOpenapiValidationError⟩
      ⟨Json.undef, [("content-type", "application/json")], Json.undef, Json.undef⟩
      = some ⟨400, [RespError.schemaErr "body" missingBodyMessage
          (some (Json.obj [("type", Json.str "object")]))]⟩
    ∧ (RespError.schemaErr "body" missingBodyMessage
        (some (Json.obj [("type", Json.str "object")]))).pathOf = none :=
  c6_missing_required_body
    ⟨true, [("application/json", some (Json.obj [("type", Json.str "object")]))]⟩
    "application/json" (some (Json.obj [("type", Json.str "object")]))
    (fun _ _ => none) none none none none toOpenapiValidationError
    Json.undef [("content-type", "application/json")] Json.undef Json.undef
    (by decide) (by decide) (by decide) (by decide)
    (by intro f h; cases h) (by intro f h; cases h) (by intro f h; cases h)

theorem c7_unsupported_media_type_witness :
    validate ⟨none, true, some ⟨true, [("application/json", some (Json.obj []))]⟩,
        fun _ _ => none, none, none, none, none, toOpenapiValidationError⟩
      ⟨Json.undef, [("content-type", "application/xml")], Json.undef, Json.undef⟩
      = some ⟨415, [RespError.mediaErr "Unsupported Content-Type application/xml"]⟩ :=
  c7_unsupported_media_type (some (Json.obj []))
    (fun _ _ => none) none none none none toOpenapiValidationError
    Json.undef [("content-type", "application/xml")] Json.undef Json.undef
    (by decide)
    (by intro f h; cases h) (by intro f h; cases h) (by intro f h; cases h)
    (by intro f h; cases h)

theorem c10_no_content_type_skips_body_witness :
    getSchemaForMediaType (List.lookup "content-type" ([] : List (String × String)))
        (⟨false, [("application/json", some (Json.obj []))]⟩ : RequestBodySpec).content = none
    ∧ validate ⟨none, false, some ⟨false, [("application/json", some (Json.obj []))]⟩,
        fun _ _ => some [⟨"type", ".body", "never reached", none, none, none⟩],
        none, none, none, none, toOpenapiValidationError⟩
      ⟨Json.obj [("x", Json.num 1)], [], Json.undef, Json.undef⟩ = none :=
  c10_no_content_type_skips_body
    ⟨false, [("application/json", some (Json.obj []))]⟩
    (fun _ _ => some [⟨"type", ".body", "never reached", none, none, none⟩])
    none none none none toOpenapiValidationError
    (Json.obj [("x", Json.num 1)]) [] Json.undef Json.undef
    (by decide) (by decide) (by decide)
    (by intro f h; cases h) (by intro f h; cases h) (by intro f h; cases h)
    (by intro f h; cases h)

/-! ### Claim C9 -/

theorem lookup_map_value {α β : Type} (g : α → β) (p : String) :
    ∀ (l : List (String × α)),
    List.lookup p (l.map (fun q => (q.1, g q.2))) = (List.lookup p l).map g := by
  intro l
  induction l with
  | nil => rfl
  | cons q t ih =>
    by_cases h : p = q.1
    · simp [List.lookup, h]
    · have hb : (p == q.1) = false := by
        simp [h]
      simp [List.lookup, hb, ih]

/-- C9: the `properties` branch of the resolver descends into each
property but never writes the resolved value back: a property whose value
is a `$ref` node is, after `resolveAndSanitizeRequestBodySchema` returns,
still the original unresolved `$ref` object, even though the reference is
resolvable in the registry — the resolver computes the inlined copy (third
conjunct) and discards it. -/
theorem c9_properties_resolution_not_written_back
    (reg : List (String × Json)) (fuel : Nat)
    (props : List (String × Json)) (p r : String) (target : Json)
    (hp : List.lookup p props = some (Json.obj [("$ref", Json.str r)]))
    (hreg : List.lookup r reg = some target) :
    (resolveAndSanitizeRequestBodySchema reg (fuel + 1)
        (Json.obj [("properties", Json.obj props)]) =
      Json.obj [("properties", Json.obj (props.map (fun q =>
        (q.1, resolveAndSanitizeRequestBodySchemaEffect reg fuel
          (sanitizeReadonlyPropertiesFromRequired q.2)))))])
    ∧ (List.lookup p (props.map (fun q =>
        (q.1, resolveAndSanitizeRequestBodySchemaEffect reg fuel
          (sanitizeReadonlyPropertiesFromRequired q.2)))) =
        some (Json.obj [("$ref", Json.str r)]))
    ∧ (resolveAndSanitizeRequestBodySchema reg (fuel + 1) (Json.obj [("$ref", Json.str r)]) =
        resolveAndSanitizeRequestBodySchema reg fuel
          (sanitizeReadonlyPropertiesFromRequired target)) := by
  refine ⟨?_, ?_, ?_⟩
  · simp [resolveAndSanitizeRequestBodySchema, Json.hasField, Json.getField, List.lookup]
  · rw [lookup_map_value
      (fun v => resolveAndSanitizeRequestBodySchemaEffect reg fuel
        (sanitizeReadonlyPropertiesFromRequired v)) p props]
    rw [hp]
    have hsan : sanitizeReadonlyPropertiesFromRequired (Json.obj [("$ref", Json.str r)]) =
        Json.obj [("$ref", Json.str r)] := by
      simp [sanitizeReadonlyPropertiesFromRequired, Json.hasField, Json.getField, List.lookup]
    have heff : resolveAndSanitizeRequestBodySchemaEffect reg fuel
        (Json.obj [("$ref", Json.str r)]) = Json.obj [("$ref", Json.str r)] := by
      rw [resolveAndSanitizeRequestBodySchemaEffect]
      rw [if_pos (by simp [Json.hasField, Json.getField, List.lookup])]
    simp [hsan, heff]
  · rw [resolveAndSanitizeRequestBodySchema]
    rw [if_neg (by simp [Json.hasField, Json.getField, List.lookup])]
    rw [if_pos (by simp [Json.hasField, Json.getField, List.lookup])]
    simp [Json.getField, List.lookup, hreg]

theorem c9_properties_resolution_not_written_back_witness :
    (resolveAndSanitizeRequestBodySchema
        [("#/components/schemas/Pet", Json.obj [("type", Json.str "object")])] 3
        (Json.obj [("properties", Json.obj
          [("pet", Json.obj [("$ref", Json.str "#/components/schemas/Pet")])])]) =
      Json.obj [("properties", Json.obj (
        [("pet", Json.obj [("$ref", Json.str "#/components/schemas/Pet")])].map (fun q =>
        (q.1, resolveAndSanitizeRequestBodySchemaEffect
          [("#/components/schemas/Pet", Json.obj [("type", Json.str "object")])] 2
          (sanitizeReadonlyPropertiesFromRequired q.2)))))])
    ∧ (List.lookup "pet" ([("pet", Json.obj [("$ref", Json.str "#/components/schemas/Pet")])].map
        (fun q => (q.1, resolveAndSanitizeRequestBodySchemaEffect
          [("#/components/schemas/Pet", Json.obj [("type", Json.str "object")])] 2
          (sanitizeReadonlyPropertiesFromRequired q.2)))) =
        some (Json.obj [("$ref", Json.str "#/components/schemas/Pet")]))
    ∧ (resolveAndSanitizeRequestBodySchema
        [("#/components/schemas/Pet", Json.obj [("type", Json.str "object")])] 3
        (Json.obj [("$ref", Json.str "#/components/schemas/Pet")]) =
      resolveAndSanitizeRequestBodySchema
        [("#/components/schemas/Pet", Json.obj [("type", Json.str "object")])] 2
        (sanitizeReadonlyPropertiesFromRequired (Json.obj [("type", Json.str "object")]))) :=
  c9_properties_resolution_not_written_back
    [("#/components/schemas/Pet", Json.obj [("type", Json.str "object")])] 2
    [("pet", Json.obj [("$ref", Json.str "#/components/schemas/Pet")])]
    "pet" "#/components/schemas/Pet" (Json.obj [("type", Json.str "object")])
    (by decide) (by decide)

/-! ### Claim C8 -/

/-- The claimed transformation: the same request with every header name
lower-cased. -/
def lowerHeaderNames (req : Request) : Request :=
  { req with headers := req.headers.map (fun kv => (jsToLower kv.1, kv.2)) }

/-- C8 counterexample: with a required requestBody configured, a request
with header `Content-Type: application/json` (mixed case) is rejected
(`validate` reads `request.headers['content-type']` case-sensitively, so
no media type matches and the synthetic media-type-not-specified error is
pushed), while the same request with lower-cased header names passes —
the claimed equation over `validate` fails. -/
theorem c8_header_case_equation_counterexample :
    validate ⟨none, true, some ⟨true, [("application/json", some (Json.obj []))]⟩,
        fun _ _ => none, none, none, none, none, toOpenapiValidationError⟩
      ⟨Json.obj [], [("Content-Type", "application/json")], Json.undef, Json.undef⟩
    ≠ validate ⟨none, true, some ⟨true, [("application/json", some (Json.obj []))]⟩,
        fun _ _ => none, none, none, none, none, toOpenapiValidationError⟩
      (lowerHeaderNames
        ⟨Json.obj [], [("Content-Type", "application/json")], Json.undef, Json.undef⟩) := by
  decide

theorem setKey_mem {α : Type} (l : List (String × α)) (k0 : String) (v : α)
    (kv : String × α) (h : kv ∈ setKey l k0 v) : kv.1 = k0 ∨ kv ∈ l := by
  unfold setKey at h
  by_cases hc : l.any (fun kv => kv.1 == k0) = true
  · rw [if_pos hc] at h
    obtain ⟨kv0, hkv0, heq⟩ := List.mem_map.mp h
    by_cases h0 : (kv0.1 == k0) = true
    · rw [if_pos h0] at heq
      left
      rw [← heq]
    · rw [if_neg h0] at heq
      right
      rw [← heq]
      exact hkv0
  · rw [if_neg hc] at h
    rcases List.mem_append.mp h with h1 | h1
    · right
      exact h1
    · left
      simp only [List.mem_singleton] at h1
      rw [h1]

theorem eraseKey_mem {α : Type} (l : List (String × α)) (k0 : String)
    (kv : String × α) (h : kv ∈ eraseKey l k0) : kv ∈ l ∧ kv.1 ≠ k0 := by
  unfold eraseKey at h
  have h2 := List.mem_filter.mp h
  refine ⟨h2.1, ?_⟩
  have h3 := h2.2
  simpa using h3

/-- Every key of the re-keyed properties object is lower-case once every
original key has been processed. -/
theorem lowercasedHeaders_fold_keys (K : List String) :
    ∀ (acc : List (String × Json)),
    (∀ kv ∈ acc, jsToLower kv.1 = kv.1 ∨ kv.1 ∈ K) →
    ∀ kv ∈ K.foldl (fun acc k =>
      setKey (eraseKey acc k) (jsToLower k) ((List.lookup k acc).getD Json.undef)) acc,
      jsToLower kv.1 = kv.1 := by
  induction K with
  | nil =>
    intro acc hacc kv hm
    rcases hacc kv hm with h1 | h1
    · exact h1
    · cases h1
  | cons k K ih =>
    intro acc hacc kv hm
    rw [List.foldl_cons] at hm
    refine ih _ ?_ kv hm
    intro kv2 hm2
    rcases setKey_mem _ _ _ kv2 hm2 with h1 | h1
    · left
      rw [h1, jsToLower_idem]
    · have h2 := eraseKey_mem _ _ kv2 h1
      rcases hacc kv2 h2.1 with h3 | h3
      · left
        exact h3
      · rcases List.mem_cons.mp h3 with h4 | h4
        · exact absurd h4 h2.2
        · right
          exact h4

/-- `lowercaseRequestHeaders` ignores a prior lower-casing of the header
names (ASCII case folding is idempotent). -/
theorem lowercaseRequestHeaders_map_lower (l : List (String × String)) :
    lowercaseRequestHeaders (l.map (fun kv => (jsToLower kv.1, kv.2))) =
      lowercaseRequestHeaders l := by
  unfold lowercaseRequestHeaders
  suffices h : ∀ acc : List (String × String),
      (l.map (fun kv => (jsToLower kv.1, kv.2))).foldl
        (fun acc kv => setKey acc (jsToLower kv.1) kv.2) acc =
      l.foldl (fun acc kv => setKey acc (jsToLower kv.1) kv.2) acc by
    exact h []
  induction l with
  | nil => intro acc; rfl
  | cons kv t ih =>
    intro acc
    simp only [List.map_cons, List.foldl_cons, jsToLower_idem]
    exact ih _

/-- C8, as amended: (1) after `lowercasedHeaders`, every property key of
the compiled header schema is lower-case and every string entry of its
`required` array is lower-case; (2) for every validator WITHOUT an
OpenAPI requestBody, `validate` on a request with mixed-case header names
equals `validate` on the same request with header names lower-cased.
(With a requestBody configured the equation fails, because the
content-type header is looked up case-sensitively: see the
counterexample.) -/
theorem c8_header_lowercasing_amended :
    (∀ (props : List (String × Json)) (reqs : List Json),
      ∃ (P : List (String × Json)) (R : List Json),
        lowercasedHeaders (some (Json.obj
          [("properties", Json.obj props), ("required", Json.arr reqs)])) =
          some (Json.obj [("properties", Json.obj P), ("required", Json.arr R)])
        ∧ (∀ kv ∈ P, jsToLower kv.1 = kv.1)
        ∧ (∀ x ∈ R, ∀ n, x = Json.str n → jsToLower n = n))
    ∧ (∀ (vs : ValidatorState) (req : Request), vs.requestBody = none →
        validate vs req = validate vs (lowerHeaderNames req)) := by
  constructor
  · intro props reqs
    refine ⟨(props.map (fun kv => kv.1)).foldl (fun acc k =>
      setKey (eraseKey acc k) (jsToLower k) ((List.lookup k acc).getD Json.undef)) props,
      if reqs.length ≠ 0 then reqs.map (fun x =>
        match x with
        | Json.str n => Json.str (jsToLower n)
        | other => other) else reqs, ?_, ?_, ?_⟩
    · simp only [lowercasedHeaders, Json.truthy, Json.getField, Json.setField,
        List.lookup, setKey, eraseKey]
      by_cases hlen : reqs.length ≠ 0
      · simp [hlen, setKey, List.lookup]
      · simp [hlen, setKey, List.lookup]
    · apply lowercasedHeaders_fold_keys
      intro kv hkv
      right
      exact List.mem_map.mpr ⟨kv, hkv, rfl⟩
    · intro x hx n hxn
      by_cases hlen : reqs.length ≠ 0
      · rw [if_pos hlen] at hx
        obtain ⟨y, hy, heq⟩ := List.mem_map.mp hx
        cases y with
        | str m =>
          rw [hxn] at heq
          have h5 : jsToLower m = n := by
            simpa using heq
          rw [← h5, jsToLower_idem]
        | undef => rw [hxn] at heq; cases heq
        | null => rw [hxn] at heq; cases heq
        | bool b => rw [hxn] at heq; cases heq
        | num m => rw [hxn] at heq; cases heq
        | arr xs => rw [hxn] at heq; cases heq
        | obj fs => rw [hxn] at heq; cases heq
      · -- claim C8 presumes header names in `required` are strings coming
        -- from the parameter conversion; with an empty `required` there is
        -- nothing to check
        rw [if_neg hlen] at hx
        simp at hlen
        rw [hlen] at hx
        cases hx
  · intro vs req hrb
    simp only [validate, validateCollect, hrb, lowerHeaderNames]
    rw [lowercaseRequestHeaders_map_lower]

theorem c8_header_lowercasing_amended_witness :
    validate ⟨none, false, none, fun _ _ => none, none, none,
        some (fun h => if h == headersJson [("x-api-key", "k")] then none
          else some [⟨"required", ".x-api-key", "missing", none, none, none⟩]),
        none, toOpenapiValidationError⟩
      ⟨Json.undef, [("X-Api-Key", "k")], Json.undef, Json.undef⟩
    = validate ⟨none, false, none, fun _ _ => none, none, none,
        some (fun h => if h == headersJson [("x-api-key", "k")] then none
          else some [⟨"required", ".x-api-key", "missing", none, none, none⟩]),
        none, toOpenapiValidationError⟩
      (lowerHeaderNames ⟨Json.undef, [("X-Api-Key", "k")], Json.undef, Json.undef⟩) :=
  c8_header_lowercasing_amended.2
    ⟨none, false, none, fun _ _ => none, none, none,
      some (fun h => if h == headersJson [("x-api-key", "k")] then none
        else some [⟨"required", ".x-api-key", "missing", none, none, none⟩]),
      none, toOpenapiValidationError⟩
    ⟨Json.undef, [("X-Api-Key", "k")], Json.undef, Json.undef⟩ rfl
